import Mathlib

/-!
Shallow embedding of the "find the impostor" game controller
(`src/Services/game.service.ts`) together with the setup component that
wraps it (`src/unnamed/part_000`), and proofs about the embedded
operations.

Modelling conventions:
* TypeScript `number` fields that the code can drive negative
  (`currentTurnIndex`, `impostorCount`) are embedded as `Int`;
  list lengths and indices produced by `Math.floor(Math.random() * n)`
  are embedded as `Nat` draws.
* Each call `Math.floor(Math.random() * n)` returns a uniform value in
  `[0, n)`; we model the stream of such calls by arbitrary natural
  numbers reduced mod `n`, an exact parametrization of the reachable
  values.
* Optional TypeScript properties (`role?`, `impostorHint?`) become
  `Option`; the TS spread `{ ...p, role, impostorHint }` always writes
  both keys, so the embedded update always overwrites both fields.
* JS truthiness is embedded faithfully where it matters: the guard
  `if (sharedHint)` in `startGame` is false both for `undefined` and for
  the empty string, so the embedding tests `sharedHint ≠ none` and
  `sharedHint ≠ some ""`.
-/

namespace ImpostorGame

/-- One catalog entry (`GameWord` in `game.service.ts`). -/
structure GameWord where
  categoria : String
  palabraSecreta : String
  pistasImpostor : List String
deriving DecidableEq, Repr

inductive Role where
  | Citizen
  | Impostor
deriving DecidableEq, Repr

/-- A roster entry (`Player` in `game.service.ts`); `role` and
`impostorHint` are optional TS properties. -/
structure Player where
  name : String
  role : Option Role
  impostorHint : Option String
deriving DecidableEq, Repr

/-- The phase union type `GameState` of `game.service.ts`. -/
inductive GameState where
  | SETUP
  | VIEW_ROLE
  | PLAYING
  | VOTING
  | RESULT
deriving DecidableEq, Repr

/-- The persisted setup configuration and UI state (`SetupState`). -/
structure SetupState where
  impostorCount : Int
  selectedCategories : List String
  shareImpostorHints : Bool
  isRandomImpostorCount : Bool
  isPlayersOpen : Bool
  isImpostorsOpen : Bool
  isCategoriesOpen : Bool
  playerNameInput : String
deriving DecidableEq, Repr

/-- `DEFAULT_SETUP_STATE` from `game.service.ts`. -/
def DEFAULT_SETUP_STATE : SetupState :=
  { impostorCount := 1
    selectedCategories := []
    shareImpostorHints := true
    isRandomImpostorCount := false
    isPlayersOpen := true
    isImpostorsOpen := true
    isCategoriesOpen := true
    playerNameInput := "" }

/-- The observable state of one `GameService` instance: the state
signals `players`, `gameState`, `currentTurnIndex`, `categories`,
`startingPlayer`, `currentWord`, `setupState` and the private word
catalog `words`.  (The unused `timer` signal is never read or written by
any modelled operation and is omitted.) -/
structure Session where
  players : List Player
  gameState : GameState
  currentTurnIndex : Int
  categories : List String
  startingPlayer : Option String
  currentWord : Option GameWord
  setupState : SetupState
  words : List GameWord
deriving DecidableEq, Repr

/-- The argument record of `GameService.startGame`; the
`isRandomImpostorCount` key is optional in TS (`none` = key absent). -/
structure StartConfig where
  impostorCount : Int
  categories : List String
  shareImpostorHints : Bool
  isRandomImpostorCount : Option Bool
deriving DecidableEq, Repr

/-- The random draws consumed by one `startGame` call.  Each field
models one `Math.floor(Math.random() * n)` call site (reduced mod `n`
at the use site); `shuffleDraw i` is the draw used by the Fisher-Yates
loop at index `i`, `playerHintIdx i` the independent hint draw for
player `i`. -/
structure Rng where
  wordIdx : Nat
  hintIdx : Nat
  playerHintIdx : Nat → Nat
  shuffleDraw : Nat → Nat
  startIdx : Nat

/-- Unique categories in first-seen order (`[...new Set(...)]` in
`loadWords`). -/
def uniqueCats : List String → List String → List String
  | [], _ => []
  | c :: rest, seen =>
    if c ∈ seen then uniqueCats rest seen else c :: uniqueCats rest (c :: seen)

/-- The fresh-start session: empty roster, `SETUP` phase, default setup
state, with the catalog `ws` loaded and (fresh start) all discovered
categories auto-selected, as `loadWords` does. -/
def initialSession (ws : List GameWord) : Session :=
  { players := []
    gameState := GameState.SETUP
    currentTurnIndex := 0
    categories := uniqueCats (ws.map (·.categoria)) []
    startingPlayer := none
    currentWord := none
    setupState := { DEFAULT_SETUP_STATE with
                      selectedCategories := uniqueCats (ws.map (·.categoria)) [] }
    words := ws }

/-! ### Roster and setup operations -/

/-- Whitespace trimming, as JS `name.trim()`: drops leading and
trailing whitespace characters.  (A character-list implementation of
`String.trim`, kept executable by kernel reduction.) -/
def trimString (s : String) : String :=
  String.mk (((s.data.dropWhile Char.isWhitespace).reverse.dropWhile
    Char.isWhitespace).reverse)

/-- `GameService.addPlayer`: appends `{name: name.trim()}` when the
trimmed name is non-empty (JS truthiness of the trimmed string). -/
def addPlayer (name : String) (s : Session) : Session :=
  if trimString name ≠ "" then
    { s with players := s.players ++ [{ name := trimString name, role := none, impostorHint := none }] }
  else s

/-- `GameService.removePlayer`: `p.filter((_, i) => i !== index)`, which
removes exactly the element at position `index` (a no-op when out of
range) — i.e. `List.eraseIdx`. -/
def removePlayer (index : Nat) (s : Session) : Session :=
  { s with players := s.players.eraseIdx index }

/-- `GameService.clearPlayers`. -/
def clearPlayers (s : Session) : Session :=
  { s with players := [] }

/-- `GameService.setImpostorCount`: writes the value unconditionally. -/
def setImpostorCount (count : Int) (s : Session) : Session :=
  { s with setupState := { s.setupState with impostorCount := count } }

/-- `maxImpostors` computed property of the setup component
(`Math.max(1, this.players().length)`). -/
def maxImpostors (s : Session) : Nat :=
  max 1 s.players.length

/-- `Setup.adjustImpostorCount` (setup component): writes the adjusted
value only when it lies in `[0, maxImpostors]`. -/
def adjustImpostorCount (delta : Int) (s : Session) : Session :=
  let newCount := s.setupState.impostorCount + delta
  if 0 ≤ newCount ∧ newCount ≤ (maxImpostors s : Int) then
    setImpostorCount newCount s
  else s

/-- The auto-clamp effect installed in the `GameService` constructor:
whenever `impostorCount > players.length` and the roster is non-empty it
rewrites `impostorCount` to `players.length`.  One application reaches
the effect's fixpoint. -/
def clampEffect (s : Session) : Session :=
  if (s.players.length : Int) < s.setupState.impostorCount ∧ 0 < s.players.length then
    setImpostorCount (s.players.length : Int) s
  else s

/-! ### startGame -/

/-- The fields of the `startGame` argument are spread into the stored
`SetupState` (`updateSetupConfig(config)`).  The argument's `categories`
key has no counterpart in the `SetupState` interface (whose field is
`selectedCategories`), so the spread leaves `selectedCategories`
untouched; an optional absent `isRandomImpostorCount` key keeps the
stored value. -/
def applyStartConfig (cfg : StartConfig) (st : SetupState) : SetupState :=
  { st with
      impostorCount := cfg.impostorCount
      shareImpostorHints := cfg.shareImpostorHints
      isRandomImpostorCount := cfg.isRandomImpostorCount.getD st.isRandomImpostorCount }

/-- `this.words.filter(w => config.categories.includes(w.categoria))`. -/
def filteredWordsOf (cfg : StartConfig) (s : Session) : List GameWord :=
  s.words.filter (fun w => cfg.categories.contains w.categoria)

/-- The word picked by `startGame`:
`filteredWords[Math.floor(Math.random() * filteredWords.length)]`. -/
def selectedWord (cfg : StartConfig) (rng : Rng) (s : Session) : GameWord :=
  let fw := filteredWordsOf cfg s
  fw.getD (rng.wordIdx % fw.length) { categoria := "", palabraSecreta := "", pistasImpostor := [] }

/-- Swap of two list positions, as the JS destructuring assignment
`[a[i], a[j]] = [a[j], a[i]]` performs for in-range indices (all uses
are in range). -/
def swapList {α : Type} (a : List α) (i j : Nat) : List α :=
  match a[i]?, a[j]? with
  | some x, some y => (a.set i y).set j x
  | _, _ => a

/-- The Fisher-Yates loop of `shuffleArray`: `for i from a.length-1 down
to 1, swap i with draws(i) mod (i+1)`. -/
def fyLoop {α : Type} (draws : Nat → Nat) (a : List α) : Nat → List α
  | 0 => a
  | i + 1 => fyLoop draws (swapList a (i + 1) (draws (i + 1) % (i + 2))) i

/-- `GameService.shuffleArray`: copies the array and runs the
Fisher-Yates loop on the copy (the argument itself is never written). -/
def shuffleArray {α : Type} (draws : Nat → Nat) (a : List α) : List α :=
  fyLoop draws a (a.length - 1)

/-- Index-passing map, as `currentPlayers.map((p, i) => ...)` (the index
of the first element of `l` is `k`). -/
def mapIdxFrom {α β : Type} (f : Nat → α → β) : Nat → List α → List β
  | _, [] => []
  | k, p :: rest => f k p :: mapIdxFrom f (k + 1) rest

/-- The per-player closure of `startGame`'s role-assignment `map`:
`role = roles[i]`; an impostor receives the shared hint when that hint
is JS-truthy (defined and non-empty), else an independent random hint
when the word has hints; every other player's `impostorHint` key is
written as `undefined`. -/
def assignPlayer (roles : List Role) (sharedHint : Option String) (word : GameWord)
    (rng : Rng) (i : Nat) (p : Player) : Player :=
  let role := roles[i]?
  let impostorHint : Option String :=
    if role = some Role.Impostor then
      if sharedHint ≠ none ∧ sharedHint ≠ some "" then sharedHint
      else if word.pistasImpostor ≠ [] then
        some (word.pistasImpostor.getD (rng.playerHintIdx i % word.pistasImpostor.length) "")
      else none
    else none
  { name := p.name, role := role, impostorHint := impostorHint }

/-- The shared hint computed by `startGame` when hint sharing is on and
the chosen word has at least one hint. -/
def sharedHintOf (cfg : StartConfig) (rng : Rng) (word : GameWord) : Option String :=
  if cfg.shareImpostorHints = true ∧ word.pistasImpostor ≠ [] then
    some (word.pistasImpostor.getD (rng.hintIdx % word.pistasImpostor.length) "")
  else none

/-- The role sequence built by `startGame` before the shuffle: one
`Impostor` per loop iteration (`i < config.impostorCount`, so none for a
negative count), then `Citizen` entries pushed `while (roles.length <
playerCount)`. -/
def builtRoles (cfg : StartConfig) (s : Session) : List Role :=
  let roles0 := List.replicate cfg.impostorCount.toNat Role.Impostor
  roles0 ++ List.replicate (s.players.length - roles0.length) Role.Citizen

/-- The role sequence after `this.shuffleArray(roles)`. -/
def shuffledRoles (cfg : StartConfig) (rng : Rng) (s : Session) : List Role :=
  shuffleArray rng.shuffleDraw (builtRoles cfg s)

/-- The success path of `startGame` (everything after the two guards). -/
def startGameCore (cfg : StartConfig) (rng : Rng) (s : Session) : Session :=
  let randomWord := selectedWord cfg rng s
  let roles := shuffledRoles cfg rng s
  let sharedHint := sharedHintOf cfg rng randomWord
  let newPlayers := mapIdxFrom (assignPlayer roles sharedHint randomWord rng) 0 s.players
  let newStarting : Option String :=
    if 0 < newPlayers.length then
      some ((newPlayers.getD (rng.startIdx % newPlayers.length)
              { name := "", role := none, impostorHint := none }).name)
    else none
  { s with
      currentWord := some randomWord
      players := newPlayers
      startingPlayer := newStarting
      currentTurnIndex := 0
      gameState := GameState.VIEW_ROLE }

/-- `GameService.startGame`: persists the config into `SetupState`
first, then returns early when the catalog is empty or fewer than 3
players are present, then when no catalog word matches the selected
categories; otherwise runs the role-assignment core. -/
def startGame (cfg : StartConfig) (rng : Rng) (s : Session) : Session :=
  let s1 := { s with setupState := applyStartConfig cfg s.setupState }
  if s1.words = [] ∨ s1.players.length < 3 then s1
  else if filteredWordsOf cfg s1 = [] then s1
  else startGameCore cfg rng s1

/-! ### Turn and phase operations -/

/-- `GameService.nextTurn`. -/
def nextTurn (s : Session) : Session :=
  let nextIndex := s.currentTurnIndex + 1
  if nextIndex < (s.players.length : Int) then
    { s with currentTurnIndex := nextIndex }
  else
    { s with gameState := GameState.PLAYING }

/-- `GameService.previousTurn`. -/
def previousTurn (s : Session) : Session :=
  if s.gameState = GameState.PLAYING then
    { s with gameState := GameState.VIEW_ROLE,
             currentTurnIndex := (s.players.length : Int) - 1 }
  else if 0 < s.currentTurnIndex then
    { s with currentTurnIndex := s.currentTurnIndex - 1 }
  else s

/-- `GameService.startVoting`. -/
def startVoting (s : Session) : Session :=
  { s with gameState := GameState.VOTING }

/-- `GameService.resetGame`: back to `SETUP`, round state cleared,
players stripped to `{name: p.name}`; `setupState` (and the catalog) are
left as they are. -/
def resetGame (s : Session) : Session :=
  { s with
      gameState := GameState.SETUP
      currentTurnIndex := 0
      currentWord := none
      startingPlayer := none
      players := s.players.map (fun p => { name := p.name, role := none, impostorHint := none }) }

/-! ### The random-impostor-count sampler (setup component)

`calculateRandomImpostorCount` builds, with JS floating-point
arithmetic, a bell-shaped weight list of length `totalPlayers + 1`
(each entry `exp(...) + 0.02`), draws `randomValue` uniformly in
`[0, totalWeight)` and walks the cumulative weights, returning the first
index whose cumulative sum reaches the draw, with `peak` as the
fall-through fallback.  The float weight values are abstracted here as
an arbitrary rational weight list of the same length — the claimed
properties depend only on the walk, the list length and the fallback. -/

/-- `peak = Math.floor((totalPlayers + 2) / 4)`. -/
def samplerPeak (totalPlayers : Nat) : Nat :=
  (totalPlayers + 2) / 4

/-- The cumulative-weight walk of `calculateRandomImpostorCount`:
`accumulatedWeight += weights[i]; if (randomValue ≤ accumulatedWeight)
return i`, with accumulator `acc` and current index `i`. -/
def walkWeights (rv : ℚ) : List ℚ → ℚ → Nat → Option Nat
  | [], _, _ => none
  | w :: rest, acc, i =>
    if rv ≤ acc + w then some i else walkWeights rv rest (acc + w) (i + 1)

/-- `calculateRandomImpostorCount`, parametrized by the weight list
`ws` (in the source: the float bell-curve weights, one per count in
`0..totalPlayers`) and the uniform draw `rv` in `[0, totalWeight)`. -/
def calculateRandomImpostorCount (totalPlayers : Nat) (ws : List ℚ) (rv : ℚ) : Nat :=
  (walkWeights rv ws 0 0).getD (samplerPeak totalPlayers)

/-! ### Step relations for reachability (claim C8) -/

/-- One application of a public controller operation, as the views call
them.  Roster mutations are composed with the constructor's auto-clamp
effect (which rewrites only `setupState.impostorCount`). -/
inductive Step : Session → Session → Prop
  | addPlayer (s : Session) (name : String) : Step s (clampEffect (addPlayer name s))
  | removePlayer (s : Session) (i : Nat) : Step s (clampEffect (removePlayer i s))
  | clearPlayers (s : Session) : Step s (clampEffect (clearPlayers s))
  | startGame (s : Session) (cfg : StartConfig) (rng : Rng) :
      Step s (clampEffect (startGame cfg rng s))
  | nextTurn (s : Session) : Step s (nextTurn s)
  | previousTurn (s : Session) : Step s (previousTurn s)
  | startVoting (s : Session) : Step s (startVoting s)
  | resetGame (s : Session) : Step s (clampEffect (resetGame s))

/-- States reachable from the fresh session with catalog `ws` via the
public operations. -/
def Reachable (ws : List GameWord) (s : Session) : Prop :=
  Relation.ReflTransGen Step (initialSession ws) s

/-- The same operations, restricted so that the roster is never mutated
while the phase is `VIEW_ROLE` and `previousTurn` is never invoked in
the `PLAYING` phase with an empty roster. -/
inductive RStep : Session → Session → Prop
  | addPlayer (s : Session) (name : String) : RStep s (clampEffect (addPlayer name s))
  | removePlayer (s : Session) (i : Nat) (h : s.gameState ≠ GameState.VIEW_ROLE) :
      RStep s (clampEffect (removePlayer i s))
  | clearPlayers (s : Session) (h : s.gameState ≠ GameState.VIEW_ROLE) :
      RStep s (clampEffect (clearPlayers s))
  | startGame (s : Session) (cfg : StartConfig) (rng : Rng) :
      RStep s (clampEffect (startGame cfg rng s))
  | nextTurn (s : Session) : RStep s (nextTurn s)
  | previousTurn (s : Session) (h : s.gameState = GameState.PLAYING → s.players ≠ []) :
      RStep s (previousTurn s)
  | startVoting (s : Session) : RStep s (startVoting s)
  | resetGame (s : Session) : RStep s (clampEffect (resetGame s))

/-- States reachable via the restricted operations. -/
def RReachable (ws : List GameWord) (s : Session) : Prop :=
  Relation.ReflTransGen RStep (initialSession ws) s

/-! ### Permutation facts about the shuffle -/

theorem cons_set_perm {α : Type} (t : List α) (m : Nat) (x : α) (h : m < t.length) :
    List.Perm (t[m] :: t.set m x) (x :: t) := by
  induction t generalizing m with
  | nil => simp at h
  | cons y u ih =>
    match m with
    | 0 => simpa using List.Perm.swap x y u
    | m' + 1 =>
      have h' : m' < u.length := by simpa using h
      have step1 : List.Perm (u[m'] :: y :: u.set m' x) (y :: u[m'] :: u.set m' x) :=
        List.Perm.swap y u[m'] (u.set m' x)
      have step2 : List.Perm (y :: u[m'] :: u.set m' x) (y :: x :: u) :=
        List.Perm.cons y (ih m' h')
      have step3 : List.Perm (y :: x :: u) (x :: y :: u) := List.Perm.swap x y u
      simpa using (step1.trans step2).trans step3

theorem set_set_swap_perm {α : Type} :
    ∀ (a : List α) (i j : Nat), ∀ (hi : i < a.length) (hj : j < a.length),
    List.Perm ((a.set i a[j]).set j a[i]) a := by
  intro a
  induction a with
  | nil => intro i j hi _; simp at hi
  | cons z u ih =>
    intro i j hi hj
    match i, j with
    | 0, 0 => simp
    | 0, m + 1 =>
      have hm : m < u.length := by simpa using hj
      simpa using cons_set_perm u m z hm
    | n + 1, 0 =>
      have hn : n < u.length := by simpa using hi
      simpa using cons_set_perm u n z hn
    | n + 1, m + 1 =>
      have hn : n < u.length := by simpa using hi
      have hm : m < u.length := by simpa using hj
      simpa using List.Perm.cons z (ih n m hn hm)

theorem swapList_perm {α : Type} (a : List α) (i j : Nat) :
    List.Perm (swapList a i j) a := by
  unfold swapList
  split
  next x y hx hy =>
    obtain ⟨hi, hxe⟩ := List.getElem?_eq_some.mp hx
    obtain ⟨hj, hye⟩ := List.getElem?_eq_some.mp hy
    subst hxe; subst hye
    exact set_set_swap_perm a i j hi hj
  next => exact List.Perm.refl a

theorem fyLoop_perm {α : Type} (draws : Nat → Nat) :
    ∀ (i : Nat) (a : List α), List.Perm (fyLoop draws a i) a := by
  intro i
  induction i with
  | zero => intro a; exact List.Perm.refl a
  | succ i ih =>
    intro a
    exact (ih (swapList a (i + 1) (draws (i + 1) % (i + 2)))).trans
      (swapList_perm a (i + 1) (draws (i + 1) % (i + 2)))

theorem shuffleArray_perm {α : Type} (draws : Nat → Nat) (a : List α) :
    List.Perm (shuffleArray draws a) a :=
  fyLoop_perm draws (a.length - 1) a

theorem shuffleArray_length {α : Type} (draws : Nat → Nat) (a : List α) :
    (shuffleArray draws a).length = a.length :=
  (shuffleArray_perm draws a).length_eq

/-! ### Facts about the index-passing map -/

theorem mapIdxFrom_length {α β : Type} (f : Nat → α → β) :
    ∀ (k : Nat) (l : List α), (mapIdxFrom f k l).length = l.length := by
  intro k l
  induction l generalizing k with
  | nil => rfl
  | cons p rest ih => simp [mapIdxFrom, ih]

theorem mem_mapIdxFrom {α β : Type} (f : Nat → α → β) :
    ∀ (k : Nat) (l : List α) (b : β), b ∈ mapIdxFrom f k l → ∃ i a, b = f i a := by
  intro k l
  induction l generalizing k with
  | nil => intro b hb; simp [mapIdxFrom] at hb
  | cons p rest ih =>
    intro b hb
    rw [mapIdxFrom] at hb
    rcases List.mem_cons.mp hb with h | h
    · exact ⟨k, p, h⟩
    · exact ih (k + 1) b h

/-- The roles written by the assignment map are exactly the shuffled
role sequence (position by position), once the latter is long enough. -/
theorem mapIdxFrom_assign_roles (roles : List Role) (sh : Option String) (w : GameWord)
    (rng : Rng) :
    ∀ (l : List Player) (k : Nat), roles.length = k + l.length →
    (mapIdxFrom (assignPlayer roles sh w rng) k l).map Player.role =
      (roles.drop k).map some := by
  intro l
  induction l with
  | nil =>
    intro k hk
    simp only [List.length_nil, Nat.add_zero] at hk
    simp [mapIdxFrom, List.drop_eq_nil_of_le (le_of_eq hk)]
  | cons p rest ih =>
    intro k hk
    simp only [List.length_cons] at hk
    have hklt : k < roles.length := by omega
    have hdrop : roles.drop k = roles[k] :: roles.drop (k + 1) :=
      List.drop_eq_getElem_cons hklt
    have hrole : (assignPlayer roles sh w rng k p).role = roles[k]? := rfl
    have hsome : roles[k]? = some roles[k] := List.getElem?_eq_getElem hklt
    simp only [mapIdxFrom, List.map_cons, hdrop]
    rw [hrole, hsome, ih (k + 1) (by omega)]

theorem count_map_some {α : Type} [DecidableEq α] (l : List α) (r : α) :
    (l.map some).count (some r) = l.count r := by
  induction l with
  | nil => rfl
  | cons a t ih =>
    simp only [List.map_cons, List.count_cons, ih]
    by_cases h : a = r <;> simp [h]

/-! ### Concrete sessions used by witnesses and counterexamples -/

/-- The fallback catalog entry of `loadWords`, used as a concrete word. -/
def wMate : GameWord :=
  { categoria := "Cultura Arg", palabraSecreta := "Mate",
    pistasImpostor := ["Yerba", "Bombilla"] }

/-- A deterministic random stream: every draw is 0. -/
def rngZero : Rng :=
  { wordIdx := 0, hintIdx := 0, playerHintIdx := fun _ => 0,
    shuffleDraw := fun _ => 0, startIdx := 0 }

/-- A three-player roster. -/
def threePlayers : List Player :=
  [{ name := "Ana", role := none, impostorHint := none },
   { name := "Beto", role := none, impostorHint := none },
   { name := "Caro", role := none, impostorHint := none }]

/-- A setup-phase session with three players and the fallback catalog. -/
def baseSession : Session :=
  { players := threePlayers
    gameState := GameState.SETUP
    currentTurnIndex := 0
    categories := ["Cultura Arg"]
    startingPlayer := none
    currentWord := none
    setupState := DEFAULT_SETUP_STATE
    words := [wMate] }

/-- A session sitting in the `VOTING` phase with the turn index still at
1 (reachable: start a game with two `nextTurn`s, then `startVoting`... the
index is simply carried along). -/
def votingSession : Session :=
  { baseSession with gameState := GameState.VOTING, currentTurnIndex := 1 }

/-- Whether the stored impostor count lies in `[0, max(1, playerCount)]`. -/
def inRangeImpostor (s : Session) : Prop :=
  0 ≤ s.setupState.impostorCount ∧ s.setupState.impostorCount ≤ (maxImpostors s : Int)

instance (s : Session) : Decidable (inRangeImpostor s) := by
  unfold inRangeImpostor; infer_instance

/-! ### Claim theorems -/

/-- Claim C10: for every input list and every sequence of random draws,
`shuffleArray` returns a permutation of its input: same length and same
multiset of elements.  (The embedding is pure, so the argument list is
by construction unmodified; in the source `shuffleArray` copies the
array with `[...array]` before the in-place loop.) -/
theorem C10_shuffleArray_permutation {α : Type} (draws : Nat → Nat) (l : List α) :
    List.Perm (shuffleArray draws l) l ∧ (shuffleArray draws l).length = l.length :=
  ⟨shuffleArray_perm draws l, shuffleArray_length draws l⟩

/-- Claim C5: `resetGame` sets phase to `Setup`, turn index to 0,
current word and starting player to `null`, strips `role` and
`impostorHint` from every player while keeping each name and the roster
order, and leaves the whole `SetupState` (and the catalog) unchanged. -/
theorem C5_resetGame_resets_round_state_only (s : Session) :
    (resetGame s).gameState = GameState.SETUP ∧
    (resetGame s).currentTurnIndex = 0 ∧
    (resetGame s).currentWord = none ∧
    (resetGame s).startingPlayer = none ∧
    (resetGame s).players.map Player.name = s.players.map Player.name ∧
    (∀ p ∈ (resetGame s).players, p.role = none ∧ p.impostorHint = none) ∧
    (resetGame s).setupState = s.setupState ∧
    (resetGame s).words = s.words := by
  refine ⟨rfl, rfl, rfl, rfl, ?_, ?_, rfl, rfl⟩
  · simp [resetGame]
  · intro p hp
    simp only [resetGame, List.mem_map] at hp
    obtain ⟨q, _, hq⟩ := hp
    constructor <;> simp [← hq]

/-- Claim C7 counterexample: in the `VOTING` phase with turn index 1 the
claim predicts a no-op, but `previousTurn` decrements the index (the
decrement branch of the source is not guarded by the `ViewRole`
phase). -/
theorem C7_counterexample_voting_decrements :
    votingSession.gameState = GameState.VOTING ∧
    votingSession.currentTurnIndex = 1 ∧
    (previousTurn votingSession).currentTurnIndex = 0 ∧
    previousTurn votingSession ≠ votingSession := by
  refine ⟨rfl, rfl, ?_, ?_⟩ <;> decide

/-- Claim C7 (amended): if phase is `Playing`, `previousTurn` moves back
to `ViewRole` with the index at the last player; in ANY other phase it
decrements a positive index by one (not only in `ViewRole`); it is a
no-op exactly when the phase is not `Playing` and the index is not
positive. -/
theorem C7_previousTurn_cases (s : Session) :
    (s.gameState = GameState.PLAYING →
      previousTurn s = { s with gameState := GameState.VIEW_ROLE,
                                currentTurnIndex := (s.players.length : Int) - 1 }) ∧
    (s.gameState ≠ GameState.PLAYING → 0 < s.currentTurnIndex →
      previousTurn s = { s with currentTurnIndex := s.currentTurnIndex - 1 }) ∧
    (s.gameState ≠ GameState.PLAYING → ¬ 0 < s.currentTurnIndex →
      previousTurn s = s) := by
  refine ⟨fun h => ?_, fun h h' => ?_, fun h h' => ?_⟩
  · simp [previousTurn, h]
  · simp [previousTurn, h, h']
  · simp [previousTurn, h, h']

/-- Witness for C7: evaluating the amended statement in the concrete
`VOTING` session with index 1. -/
theorem C7_previousTurn_cases_witness :
    (previousTurn votingSession).currentTurnIndex = 0 := by
  have h := (C7_previousTurn_cases votingSession).2.1 (by decide) (by decide)
  rw [h]
  decide

/-- Claim C2 counterexample: with an empty roster (`maxImpostors = 1`),
a direct `setImpostorCount 5` call stores 5 — the service-level setter
validates nothing, and the auto-clamp effect does not fire on an empty
roster — so the stored value leaves `[0, max(1, playerCount)]`. -/
theorem C2_counterexample_setImpostorCount_unchecked :
    maxImpostors (initialSession []) = 1 ∧
    (clampEffect (setImpostorCount 5 (initialSession []))).setupState.impostorCount = 5 ∧
    ¬ inRangeImpostor (clampEffect (setImpostorCount 5 (initialSession []))) := by
  refine ⟨rfl, ?_, ?_⟩ <;> decide

/-- Claim C2 (amended): the component-level `adjustImpostorCount` keeps
the stored impostor count inside `[0, max(1, playerCount)]` (and a
request whose result would leave the range changes nothing, with no
error raised), and `setImpostorCount` preserves the range when its
argument is in range — but `setImpostorCount` itself validates nothing,
so an out-of-range argument is stored as-is.  Both operations are
composed with the reactive auto-clamp effect. -/
theorem C2_adjust_preserves_range (s : Session) (delta n : Int)
    (hinv : inRangeImpostor s) :
    inRangeImpostor (clampEffect (adjustImpostorCount delta s)) ∧
    (¬ (0 ≤ s.setupState.impostorCount + delta ∧
        s.setupState.impostorCount + delta ≤ (maxImpostors s : Int)) →
      clampEffect (adjustImpostorCount delta s) = s) ∧
    (0 ≤ n → n ≤ (maxImpostors s : Int) →
      inRangeImpostor (clampEffect (setImpostorCount n s))) := by
  obtain ⟨h0, h1⟩ := hinv
  have hclamp_id : clampEffect s = s := by
    unfold clampEffect
    rw [if_neg]
    intro ⟨hlt, hpos⟩
    have : (maxImpostors s : Int) = (s.players.length : Int) := by
      unfold maxImpostors
      have : 1 ≤ s.players.length := hpos
      omega
    omega
  refine ⟨?_, fun hout => ?_, fun hn0 hn1 => ?_⟩
  · unfold adjustImpostorCount
    by_cases hc : 0 ≤ s.setupState.impostorCount + delta ∧
        s.setupState.impostorCount + delta ≤ (maxImpostors s : Int)
    · rw [if_pos hc]
      unfold clampEffect setImpostorCount inRangeImpostor maxImpostors
      simp only
      split
      next h => simp only [maxImpostors] at *; omega
      next h => simp only [maxImpostors] at *; omega
    · rw [if_neg hc, hclamp_id]
      exact ⟨h0, h1⟩
  · unfold adjustImpostorCount
    rw [if_neg hout, hclamp_id]
  · unfold clampEffect setImpostorCount inRangeImpostor maxImpostors
    simp only
    split
    next h => simp only [maxImpostors] at *; omega
    next h => simp only [maxImpostors] at *; omega

/-- Witness for C2: a concrete in-range adjustment on the three-player
session (count 1, `delta = 1`, `n = 2`). -/
theorem C2_adjust_preserves_range_witness :
    inRangeImpostor (clampEffect (adjustImpostorCount 1 baseSession)) ∧
    (¬ (0 ≤ baseSession.setupState.impostorCount + 1 ∧
        baseSession.setupState.impostorCount + 1 ≤ (maxImpostors baseSession : Int)) →
      clampEffect (adjustImpostorCount 1 baseSession) = baseSession) ∧
    (0 ≤ (2 : Int) → (2 : Int) ≤ (maxImpostors baseSession : Int) →
      inRangeImpostor (clampEffect (setImpostorCount 2 baseSession))) :=
  C2_adjust_preserves_range baseSession 1 2 (by decide)

/-- A `startGame` argument whose configuration differs from the default
stored setup (impostor count 2 instead of 1). -/
def cfgTwo : StartConfig :=
  { impostorCount := 2, categories := ["Cultura Arg"],
    shareImpostorHints := true, isRandomImpostorCount := some false }

/-- Claim C3 counterexample: calling `startGame` on a session whose
catalog has not loaded is NOT a state no-op — the source persists the
supplied config (`updateSetupConfig(config)`) before checking the
guard, so the stored `impostorCount` changes from 1 to 2. -/
theorem C3_counterexample_guard_still_writes_config :
    (initialSession []).words = [] ∧
    (initialSession []).setupState.impostorCount = 1 ∧
    (startGame cfgTwo rngZero (initialSession [])).setupState.impostorCount = 2 ∧
    startGame cfgTwo rngZero (initialSession []) ≠ initialSession [] := by
  refine ⟨rfl, rfl, ?_, ?_⟩ <;> decide

/-- Claim C3 (amended): when the catalog is empty or fewer than 3
players are present, `startGame` leaves every piece of game-round state
(players, phase, turn index, current word, starting player, category
list, catalog) unchanged, but it DOES update the stored setup
configuration: `impostorCount`, `shareImpostorHints` and
`isRandomImpostorCount` take the supplied config's values, while
`selectedCategories`, the UI flags and the name-input buffer are kept
(the argument's `categories` key has no `SetupState` counterpart). -/
theorem C3_startGame_guard_frame (cfg : StartConfig) (rng : Rng) (s : Session)
    (h : s.words = [] ∨ s.players.length < 3) :
    (startGame cfg rng s).players = s.players ∧
    (startGame cfg rng s).gameState = s.gameState ∧
    (startGame cfg rng s).currentTurnIndex = s.currentTurnIndex ∧
    (startGame cfg rng s).currentWord = s.currentWord ∧
    (startGame cfg rng s).startingPlayer = s.startingPlayer ∧
    (startGame cfg rng s).categories = s.categories ∧
    (startGame cfg rng s).words = s.words ∧
    (startGame cfg rng s).setupState = applyStartConfig cfg s.setupState ∧
    (startGame cfg rng s).setupState.selectedCategories
      = s.setupState.selectedCategories := by
  have hs : startGame cfg rng s = { s with setupState := applyStartConfig cfg s.setupState } := by
    unfold startGame
    simp only
    rw [if_pos]
    exact h
  rw [hs]
  exact ⟨rfl, rfl, rfl, rfl, rfl, rfl, rfl, rfl, rfl⟩

/-- Witness for C3 (amended): the concrete empty-catalog call. -/
theorem C3_startGame_guard_frame_witness :
    ((initialSession []).words = [] ∨ (initialSession []).players.length < 3) ∧
    (startGame cfgTwo rngZero (initialSession [])).players = (initialSession []).players ∧
    (startGame cfgTwo rngZero (initialSession [])).setupState
      = applyStartConfig cfgTwo (initialSession []).setupState := by
  have h := C3_startGame_guard_frame cfgTwo rngZero (initialSession []) (Or.inl rfl)
  exact ⟨Or.inl rfl, h.1, h.2.2.2.2.2.2.2.1⟩

/-- A config selecting a category matched by no catalog word. -/
def cfgNoMatch : StartConfig :=
  { impostorCount := 1, categories := ["Nada"],
    shareImpostorHints := true, isRandomImpostorCount := some false }

/-- Claim C4: when the catalog is loaded and at least 3 players are
present but no catalog word's category is selected, `startGame` aborts
leaving the whole game-round state — players (roles and hints), current
word, phase, turn index and starting player — exactly as before the
call.  (The logged console error is outside the state model.) -/
theorem C4_startGame_empty_filter_aborts (cfg : StartConfig) (rng : Rng) (s : Session)
    (hw : s.words ≠ []) (hr : 3 ≤ s.players.length)
    (hf : filteredWordsOf cfg s = []) :
    (startGame cfg rng s).players = s.players ∧
    (startGame cfg rng s).gameState = s.gameState ∧
    (startGame cfg rng s).currentTurnIndex = s.currentTurnIndex ∧
    (startGame cfg rng s).currentWord = s.currentWord ∧
    (startGame cfg rng s).startingPlayer = s.startingPlayer := by
  have hs : startGame cfg rng s = { s with setupState := applyStartConfig cfg s.setupState } := by
    unfold startGame
    simp only
    rw [if_neg, if_pos]
    · exact hf
    · intro hcon
      rcases hcon with hcon | hcon
      · exact hw hcon
      · omega
  rw [hs]
  exact ⟨rfl, rfl, rfl, rfl, rfl⟩

/-! ### The success path of startGame -/

theorem startGame_success_eq (cfg : StartConfig) (rng : Rng) (s : Session)
    (hw : s.words ≠ []) (hr : 3 ≤ s.players.length)
    (hf : filteredWordsOf cfg s ≠ []) :
    startGame cfg rng s
      = startGameCore cfg rng { s with setupState := applyStartConfig cfg s.setupState } := by
  unfold startGame
  simp only
  rw [if_neg, if_neg]
  · exact hf
  · intro hcon
    rcases hcon with hcon | hcon
    · exact hw hcon
    · omega

/-- On the success path, the new roster is the index-passing map of
`assignPlayer` over the old roster. -/
theorem startGame_success_players (cfg : StartConfig) (rng : Rng) (s : Session)
    (hw : s.words ≠ []) (hr : 3 ≤ s.players.length)
    (hf : filteredWordsOf cfg s ≠ []) :
    (startGame cfg rng s).players =
      mapIdxFrom (assignPlayer (shuffledRoles cfg rng s)
        (sharedHintOf cfg rng (selectedWord cfg rng s))
        (selectedWord cfg rng s) rng) 0 s.players := by
  rw [startGame_success_eq cfg rng s hw hr hf]
  rfl

theorem builtRoles_length (cfg : StartConfig) (s : Session)
    (h0 : 0 ≤ cfg.impostorCount) (h1 : cfg.impostorCount ≤ (s.players.length : Int)) :
    (builtRoles cfg s).length = s.players.length := by
  unfold builtRoles
  simp only [List.length_append, List.length_replicate]
  omega

theorem builtRoles_count_impostor (cfg : StartConfig) (s : Session) :
    (builtRoles cfg s).count Role.Impostor = cfg.impostorCount.toNat := by
  unfold builtRoles
  simp [List.count_append, List.count_replicate]

theorem builtRoles_count_citizen (cfg : StartConfig) (s : Session) :
    (builtRoles cfg s).count Role.Citizen
      = s.players.length - cfg.impostorCount.toNat := by
  unfold builtRoles
  simp [List.count_append, List.count_replicate]

theorem shuffledRoles_length (cfg : StartConfig) (rng : Rng) (s : Session)
    (h0 : 0 ≤ cfg.impostorCount) (h1 : cfg.impostorCount ≤ (s.players.length : Int)) :
    (shuffledRoles cfg rng s).length = s.players.length := by
  unfold shuffledRoles
  rw [shuffleArray_length]
  exact builtRoles_length cfg s h0 h1

/-- The role column of the post-`startGame` roster is exactly the
shuffled role sequence. -/
theorem startGame_success_roles (cfg : StartConfig) (rng : Rng) (s : Session)
    (hw : s.words ≠ []) (hr : 3 ≤ s.players.length)
    (hf : filteredWordsOf cfg s ≠ [])
    (h0 : 0 ≤ cfg.impostorCount) (h1 : cfg.impostorCount ≤ (s.players.length : Int)) :
    (startGame cfg rng s).players.map Player.role
      = (shuffledRoles cfg rng s).map some := by
  rw [startGame_success_players cfg rng s hw hr hf]
  have h := mapIdxFrom_assign_roles (shuffledRoles cfg rng s)
    (sharedHintOf cfg rng (selectedWord cfg rng s)) (selectedWord cfg rng s) rng
    s.players 0 (by rw [shuffledRoles_length cfg rng s h0 h1]; omega)
  simpa using h

/-- Claim C1: on a successful `startGame` with resolved impostor count
`N` in `[0, playerCount]`, exactly `N` players receive role `Impostor`
and exactly `playerCount - N` receive role `Citizen`. -/
theorem C1_startGame_role_counts (cfg : StartConfig) (rng : Rng) (s : Session)
    (hw : s.words ≠ []) (hr : 3 ≤ s.players.length)
    (hf : filteredWordsOf cfg s ≠ [])
    (h0 : 0 ≤ cfg.impostorCount) (h1 : cfg.impostorCount ≤ (s.players.length : Int)) :
    ((startGame cfg rng s).players.map Player.role).count (some Role.Impostor)
        = cfg.impostorCount.toNat ∧
    ((startGame cfg rng s).players.map Player.role).count (some Role.Citizen)
        = s.players.length - cfg.impostorCount.toNat := by
  rw [startGame_success_roles cfg rng s hw hr hf h0 h1]
  rw [count_map_some, count_map_some]
  have hperm := shuffleArray_perm rng.shuffleDraw (builtRoles cfg s)
  have himp := hperm.count_eq Role.Impostor
  have hcit := hperm.count_eq Role.Citizen
  unfold shuffledRoles
  rw [himp, hcit, builtRoles_count_impostor, builtRoles_count_citizen]
  exact ⟨rfl, rfl⟩

/-- A well-formed start configuration used by witnesses: one impostor,
hint sharing on, the fallback category selected. -/
def cfgShare : StartConfig :=
  { impostorCount := 1, categories := ["Cultura Arg"],
    shareImpostorHints := true, isRandomImpostorCount := some false }

/-- Witness for C1: the three-player session with the fallback catalog
and one impostor. -/
theorem C1_startGame_role_counts_witness :
    baseSession.words ≠ [] ∧ 3 ≤ baseSession.players.length ∧
    filteredWordsOf cfgShare baseSession ≠ [] ∧
    ((startGame cfgShare rngZero baseSession).players.map Player.role).count
        (some Role.Impostor) = 1 ∧
    ((startGame cfgShare rngZero baseSession).players.map Player.role).count
        (some Role.Citizen) = 2 := by
  have h := C1_startGame_role_counts cfgShare rngZero baseSession
    (by decide) (by decide) (by decide) (by decide) (by decide)
  exact ⟨by decide, by decide, by decide, h.1, h.2⟩

/-- A catalog word whose first impostor hint is the empty string. -/
def wTricky : GameWord :=
  { categoria := "Cat", palabraSecreta := "W", pistasImpostor := ["", "x"] }

/-- Three players with the `wTricky` catalog. -/
def trickySession : Session :=
  { baseSession with categories := ["Cat"], words := [wTricky] }

/-- Two impostors, hint sharing on, the `wTricky` category selected. -/
def cfgTricky : StartConfig :=
  { impostorCount := 2, categories := ["Cat"],
    shareImpostorHints := true, isRandomImpostorCount := some false }

/-- A deterministic random stream where draw `i` is `i` (so every
Fisher-Yates step swaps an index with itself and the role order is
kept, and player `i` draws hint index `i`). -/
def rngIdx : Rng :=
  { wordIdx := 0, hintIdx := 0, playerHintIdx := fun i => i,
    shuffleDraw := fun i => i, startIdx := 0 }

/-- Claim C6 counterexample: hint sharing is on and the chosen word has
two hints, but the randomly selected shared hint is the empty string,
which is JS-falsy — `if (sharedHint)` fails and each impostor draws its
own hint independently, so the two impostors end up with different
hints (`""` and `"x"`). -/
theorem C6_counterexample_empty_shared_hint :
    cfgTricky.shareImpostorHints = true ∧
    (selectedWord cfgTricky rngIdx trickySession).pistasImpostor ≠ [] ∧
    (startGame cfgTricky rngIdx trickySession).players.map Player.role
      = [some Role.Impostor, some Role.Impostor, some Role.Citizen] ∧
    ¬ ∃ h : String, ∀ p ∈ (startGame cfgTricky rngIdx trickySession).players,
        p.role = some Role.Impostor → p.impostorHint = some h := by
  refine ⟨rfl, by decide, by decide, ?_⟩
  rintro ⟨h, hall⟩
  have hps : (startGame cfgTricky rngIdx trickySession).players
      = [{ name := "Ana", role := some Role.Impostor, impostorHint := some "" },
         { name := "Beto", role := some Role.Impostor, impostorHint := some "x" },
         { name := "Caro", role := some Role.Citizen, impostorHint := none }] := by
    decide
  have h1 := hall _ (by rw [hps]; exact List.mem_cons_self _ _) rfl
  have h2 := hall _ (by rw [hps]; exact List.mem_cons.mpr (Or.inr (List.mem_cons_self _ _))) rfl
  have e1 : some "" = some h := h1
  have e2 : some "x" = some h := h2
  rw [← e1] at e2
  exact absurd e2 (by decide)

theorem assignPlayer_role (roles : List Role) (sh : Option String) (w : GameWord)
    (rng : Rng) (i : Nat) (p : Player) :
    (assignPlayer roles sh w rng i p).role = roles[i]? := rfl

/-- An impostor position receives the shared hint whenever that hint is
a defined, non-empty (JS-truthy) string. -/
theorem assignPlayer_hint_impostor (roles : List Role) (sh : Option String) (w : GameWord)
    (rng : Rng) (i : Nat) (p : Player) (h : String)
    (hsh : sh = some h) (hne : h ≠ "")
    (hrole : roles[i]? = some Role.Impostor) :
    (assignPlayer roles sh w rng i p).impostorHint = some h := by
  unfold assignPlayer
  simp only [hrole, hsh]
  rw [if_pos trivial, if_pos]
  refine ⟨by simp, ?_⟩
  simp only [ne_eq, Option.some.injEq]
  exact hne

/-- A citizen position never receives a hint. -/
theorem assignPlayer_hint_citizen (roles : List Role) (sh : Option String) (w : GameWord)
    (rng : Rng) (i : Nat) (p : Player)
    (hrole : roles[i]? = some Role.Citizen) :
    (assignPlayer roles sh w rng i p).impostorHint = none := by
  unfold assignPlayer
  simp only [hrole]
  rw [if_neg]
  simp

/-- Claim C6 (amended): after a successful `startGame` with
`shareImpostorHints` on, the chosen word having at least one hint, and
the randomly selected shared hint being a NON-EMPTY string (JS
truthiness of `if (sharedHint)`), every `Impostor` carries that
identical hint and every `Citizen` carries none. -/
theorem C6_shared_hint_identical (cfg : StartConfig) (rng : Rng) (s : Session)
    (hw : s.words ≠ []) (hr : 3 ≤ s.players.length)
    (hf : filteredWordsOf cfg s ≠ [])
    (hshare : cfg.shareImpostorHints = true)
    (hhints : (selectedWord cfg rng s).pistasImpostor ≠ [])
    (hne : (selectedWord cfg rng s).pistasImpostor.getD
        (rng.hintIdx % (selectedWord cfg rng s).pistasImpostor.length) "" ≠ "") :
    ∃ h : String, h ≠ "" ∧
      ∀ p ∈ (startGame cfg rng s).players,
        (p.role = some Role.Impostor → p.impostorHint = some h) ∧
        (p.role = some Role.Citizen → p.impostorHint = none) := by
  set w := selectedWord cfg rng s with hwdef
  refine ⟨w.pistasImpostor.getD (rng.hintIdx % w.pistasImpostor.length) "", hne, ?_⟩
  intro p hp
  rw [startGame_success_players cfg rng s hw hr hf] at hp
  obtain ⟨i, a, hpa⟩ := mem_mapIdxFrom _ _ _ _ hp
  have hsh : sharedHintOf cfg rng w
      = some (w.pistasImpostor.getD (rng.hintIdx % w.pistasImpostor.length) "") := by
    unfold sharedHintOf
    rw [if_pos ⟨hshare, hhints⟩]
  subst hpa
  constructor
  · intro hrole
    rw [assignPlayer_role] at hrole
    exact assignPlayer_hint_impostor _ _ _ _ _ _ _ hsh hne hrole
  · intro hrole
    rw [assignPlayer_role] at hrole
    exact assignPlayer_hint_citizen _ _ _ _ _ _ hrole

/-- Witness for C6 (amended): the base session with the fallback word,
whose selected shared hint is `"Yerba"`. -/
theorem C6_shared_hint_identical_witness :
    (selectedWord cfgShare rngZero baseSession).pistasImpostor ≠ [] ∧
    (selectedWord cfgShare rngZero baseSession).pistasImpostor.getD
        (rngZero.hintIdx % (selectedWord cfgShare rngZero baseSession).pistasImpostor.length) ""
      ≠ "" ∧
    ∃ h : String, h ≠ "" ∧
      ∀ p ∈ (startGame cfgShare rngZero baseSession).players,
        (p.role = some Role.Impostor → p.impostorHint = some h) ∧
        (p.role = some Role.Citizen → p.impostorHint = none) := by
  refine ⟨by decide, by decide, ?_⟩
  exact C6_shared_hint_identical cfgShare rngZero baseSession
    (by decide) (by decide) (by decide) (by decide) (by decide) (by decide)

/-- Witness for C4: three players, the fallback catalog and a selection
matching nothing. -/
theorem C4_startGame_empty_filter_aborts_witness :
    baseSession.words ≠ [] ∧ 3 ≤ baseSession.players.length ∧
    filteredWordsOf cfgNoMatch baseSession = [] ∧
    (startGame cfgNoMatch rngZero baseSession).gameState = baseSession.gameState ∧
    (startGame cfgNoMatch rngZero baseSession).players = baseSession.players := by
  have h := C4_startGame_empty_filter_aborts cfgNoMatch rngZero baseSession
    (by decide) (by decide) (by decide)
  exact ⟨by decide, by decide, by decide, h.2.1, h.1⟩

/-! ### The sampler walk -/

/-- Completeness and first-index characterization of the cumulative
walk, with accumulator `acc` and starting index `i0`. -/
theorem walkWeights_spec (rv : ℚ) :
    ∀ (ws : List ℚ) (acc : ℚ) (i0 : Nat), acc ≤ rv → rv < acc + ws.sum →
    ∃ k, walkWeights rv ws acc i0 = some (i0 + k) ∧ k < ws.length ∧
      rv ≤ acc + (ws.take (k + 1)).sum ∧
      ∀ j < k, acc + (ws.take (j + 1)).sum < rv := by
  intro ws
  induction ws with
  | nil =>
    intro acc i0 hle hlt
    simp only [List.sum_nil, add_zero] at hlt
    exact absurd hle (not_le.mpr hlt)
  | cons w rest ih =>
    intro acc i0 hle hlt
    by_cases hw : rv ≤ acc + w
    · refine ⟨0, ?_, by simp, by simpa using hw, by omega⟩
      unfold walkWeights
      rw [if_pos hw]
      norm_num
    · have hgt : acc + w < rv := not_le.mp hw
      have hlt' : rv < (acc + w) + rest.sum := by
        simp only [List.sum_cons] at hlt
        linarith
      obtain ⟨k', heq, hk', hub, hlb⟩ := ih (acc + w) (i0 + 1) hgt.le hlt'
      refine ⟨k' + 1, ?_, by simpa using hk', ?_, ?_⟩
      · unfold walkWeights
        rw [if_neg hw, heq]
        congr 1
        omega
      · simpa [add_assoc] using hub
      · intro j hj
        match j with
        | 0 => simpa using hgt
        | j' + 1 =>
          have := hlb j' (by omega)
          simpa [add_assoc] using this

/-- Claim C9: for every `playerCount`, every weight list of length
`playerCount + 1` (in the source: the float bell-curve weights, one per
candidate count) and every draw in `[0, totalWeight)`, the sampler
returns a value in `[0, playerCount]` — in particular it can never
return an out-of-range value for `playerCount = 10` — and the returned
value is the first index whose cumulative weight reaches or exceeds the
draw. -/
theorem C9_sampler_range_and_first_index (totalPlayers : Nat) (ws : List ℚ) (rv : ℚ)
    (hlen : ws.length = totalPlayers + 1)
    (h0 : 0 ≤ rv) (hlt : rv < ws.sum) :
    calculateRandomImpostorCount totalPlayers ws rv ≤ totalPlayers ∧
    rv ≤ (ws.take (calculateRandomImpostorCount totalPlayers ws rv + 1)).sum ∧
    ∀ j < calculateRandomImpostorCount totalPlayers ws rv, (ws.take (j + 1)).sum < rv := by
  obtain ⟨k, heq, hk, hub, hlb⟩ :=
    walkWeights_spec rv ws 0 0 h0 (by simpa using hlt)
  have hcalc : calculateRandomImpostorCount totalPlayers ws rv = k := by
    unfold calculateRandomImpostorCount
    rw [heq]
    simp
  rw [hcalc]
  refine ⟨by omega, by simpa using hub, ?_⟩
  intro j hj
  simpa using hlb j hj

/-- Witness for C9: eleven unit weights (`playerCount = 10`) and the
draw 0; the sampler returns 0. -/
theorem C9_sampler_range_witness :
    (List.replicate 11 (1 : ℚ)).length = 10 + 1 ∧
    (0 : ℚ) ≤ 0 ∧ (0 : ℚ) < (List.replicate 11 (1 : ℚ)).sum ∧
    calculateRandomImpostorCount 10 (List.replicate 11 (1 : ℚ)) 0 ≤ 10 := by
  have hpos : (0 : ℚ) < (List.replicate 11 (1 : ℚ)).sum := by
    norm_num [List.sum_replicate, nsmul_eq_mul]
  refine ⟨by decide, le_refl 0, hpos, ?_⟩
  exact (C9_sampler_range_and_first_index 10 (List.replicate 11 (1 : ℚ)) 0
    (by decide) (le_refl 0) hpos).1

/-! ### The turn-index invariant (claim C8) -/

/-- The inductive invariant: the turn index is non-negative, and within
the roster while the phase is `VIEW_ROLE`. -/
def TurnInv (s : Session) : Prop :=
  0 ≤ s.currentTurnIndex ∧
  (s.gameState = GameState.VIEW_ROLE → s.currentTurnIndex < (s.players.length : Int))

theorem clampEffect_frame (s : Session) :
    (clampEffect s).players = s.players ∧ (clampEffect s).gameState = s.gameState ∧
    (clampEffect s).currentTurnIndex = s.currentTurnIndex := by
  unfold clampEffect
  split
  next h => exact ⟨rfl, rfl, rfl⟩
  next h => exact ⟨rfl, rfl, rfl⟩

theorem turnInv_clampEffect (s : Session) (h : TurnInv s) : TurnInv (clampEffect s) := by
  obtain ⟨f1, f2, f3⟩ := clampEffect_frame s
  unfold TurnInv
  rw [f1, f2, f3]
  exact h

theorem startGameCore_gameState (cfg : StartConfig) (rng : Rng) (s : Session) :
    (startGameCore cfg rng s).gameState = GameState.VIEW_ROLE := rfl

theorem startGameCore_turnIdx (cfg : StartConfig) (rng : Rng) (s : Session) :
    (startGameCore cfg rng s).currentTurnIndex = 0 := rfl

theorem startGameCore_players_length (cfg : StartConfig) (rng : Rng) (s : Session) :
    (startGameCore cfg rng s).players.length = s.players.length :=
  mapIdxFrom_length _ 0 s.players

theorem startGame_preserves_turnInv (cfg : StartConfig) (rng : Rng) (s : Session)
    (h : TurnInv s) : TurnInv (startGame cfg rng s) := by
  unfold startGame
  simp only
  split
  next h1 => exact h
  next h1 =>
    split
    next h2 => exact h
    next h2 =>
      constructor
      · rw [startGameCore_turnIdx]
      · intro _
        rw [startGameCore_turnIdx, startGameCore_players_length]
        have h3 : ({ s with setupState := applyStartConfig cfg s.setupState } : Session).players.length
            = s.players.length := rfl
        rw [h3]
        omega

theorem rstep_preserves_turnInv (s s' : Session) (hstep : RStep s s') (h : TurnInv s) :
    TurnInv s' := by
  cases hstep with
  | addPlayer name =>
    apply turnInv_clampEffect
    unfold addPlayer
    split
    next hname =>
      refine ⟨h.1, fun hvr => ?_⟩
      have hlt := h.2 hvr
      show s.currentTurnIndex <
        ((s.players ++
          [({ name := trimString name, role := none, impostorHint := none } : Player)]).length : Int)
      simp only [List.length_append, List.length_cons, List.length_nil]
      push_cast
      omega
    next hname => exact h
  | removePlayer i hph =>
    apply turnInv_clampEffect
    exact ⟨h.1, fun hvr => absurd hvr hph⟩
  | clearPlayers hph =>
    apply turnInv_clampEffect
    exact ⟨h.1, fun hvr => absurd hvr hph⟩
  | startGame cfg rng =>
    exact turnInv_clampEffect _ (startGame_preserves_turnInv cfg rng s h)
  | nextTurn =>
    unfold nextTurn
    simp only
    split
    next hlt =>
      refine ⟨?_, fun _ => ?_⟩
      · show 0 ≤ s.currentTurnIndex + 1
        have := h.1
        omega
      · exact hlt
    next hge =>
      exact ⟨h.1, fun hvr => absurd hvr (by intro hx; cases hx)⟩
  | previousTurn hpl =>
    unfold previousTurn
    split
    next hplay =>
      have hne : s.players ≠ [] := hpl hplay
      have hlen : 0 < s.players.length := List.length_pos.mpr hne
      refine ⟨?_, fun _ => ?_⟩
      · show 0 ≤ (s.players.length : Int) - 1
        omega
      · show (s.players.length : Int) - 1 < (s.players.length : Int)
        omega
    next hnp =>
      split
      next hpos =>
        refine ⟨?_, fun hvr => ?_⟩
        · show 0 ≤ s.currentTurnIndex - 1
          omega
        · have hlt := h.2 hvr
          show s.currentTurnIndex - 1 < (s.players.length : Int)
          omega
      next hnpos => exact h
  | startVoting =>
    exact ⟨h.1, fun hvr => absurd hvr (by intro hx; cases hx)⟩
  | resetGame =>
    apply turnInv_clampEffect
    refine ⟨le_refl 0, fun hvr => absurd hvr (by intro hx; cases hx)⟩

/-- Claim C8 counterexample: from the fresh empty session, `nextTurn`
(which flips an empty-roster session straight to `PLAYING`) followed by
`previousTurn` (which "returns" to `VIEW_ROLE` with index
`players.length - 1 = -1`) reaches a `VIEW_ROLE` state whose turn index
is `-1`, outside `[0, players.length)`. -/
def c8BadState : Session := previousTurn (nextTurn (initialSession []))

theorem C8_counterexample_viewRole_negative_index :
    Reachable [] c8BadState ∧
    c8BadState.gameState = GameState.VIEW_ROLE ∧
    c8BadState.currentTurnIndex = -1 ∧
    c8BadState.players.length = 0 := by
  refine ⟨?_, by decide, by decide, by decide⟩
  have h1 : Step (initialSession []) (nextTurn (initialSession [])) :=
    Step.nextTurn (initialSession [])
  have h2 : Step (nextTurn (initialSession [])) c8BadState :=
    Step.previousTurn (nextTurn (initialSession []))
  exact Relation.ReflTransGen.tail (Relation.ReflTransGen.single h1) h2

/-- Claim C8 (amended): in every state reachable from the initial
session via the public operations, PROVIDED the roster is never mutated
(`removePlayer`/`clearPlayers`) while the phase is `ViewRole` and
`previousTurn` is never invoked in the `Playing` phase with an empty
roster, the turn index lies within `[0, players.length)` whenever the
phase is `ViewRole`. -/
theorem C8_viewRole_index_in_range (ws : List GameWord) (s : Session)
    (hreach : RReachable ws s) (hvr : s.gameState = GameState.VIEW_ROLE) :
    0 ≤ s.currentTurnIndex ∧ s.currentTurnIndex < (s.players.length : Int) := by
  have hinv : TurnInv s := by
    clear hvr
    unfold RReachable at hreach
    induction hreach with
    | refl => exact ⟨le_refl 0, fun hx => absurd hx (by intro hy; cases hy)⟩
    | tail hsteps hstep ih => exact rstep_preserves_turnInv _ _ hstep ih
  exact ⟨hinv.1, hinv.2 hvr⟩

/-- The restricted-reachable `VIEW_ROLE` state used as the C8 witness:
three players added, then a successful game start. -/
def c8WitnessState : Session :=
  clampEffect (startGame cfgShare rngZero
    (clampEffect (addPlayer "Caro"
      (clampEffect (addPlayer "Beto"
        (clampEffect (addPlayer "Ana" (initialSession [wMate]))))))))

theorem c8WitnessState_reachable : RReachable [wMate] c8WitnessState := by
  have h1 := RStep.addPlayer (initialSession [wMate]) "Ana"
  have h2 := RStep.addPlayer (clampEffect (addPlayer "Ana" (initialSession [wMate]))) "Beto"
  have h3 := RStep.addPlayer (clampEffect (addPlayer "Beto"
    (clampEffect (addPlayer "Ana" (initialSession [wMate]))))) "Caro"
  have h4 := RStep.startGame (clampEffect (addPlayer "Caro"
    (clampEffect (addPlayer "Beto"
      (clampEffect (addPlayer "Ana" (initialSession [wMate]))))))) cfgShare rngZero
  exact Relation.ReflTransGen.tail
    (Relation.ReflTransGen.tail
      (Relation.ReflTransGen.tail (Relation.ReflTransGen.single h1) h2) h3) h4

/-- Witness for C8 (amended): the concrete restricted trace ends in
`VIEW_ROLE` with the index 0 inside `[0, 3)`. -/
theorem C8_viewRole_index_in_range_witness :
    c8WitnessState.gameState = GameState.VIEW_ROLE ∧
    0 ≤ c8WitnessState.currentTurnIndex ∧
    c8WitnessState.currentTurnIndex < (c8WitnessState.players.length : Int) := by
  refine ⟨by decide, ?_⟩
  exact C8_viewRole_index_in_range [wMate] c8WitnessState c8WitnessState_reachable (by decide)

end ImpostorGame
